import Mathlib

/-!
Shallow embedding of the quizly quiz-session engine (front-end dashboard
logic) and proofs of the spec claims about it.

The embedding models the mutable dashboard state (`currentQuiz`,
`currentQuestionIndex`, `userAnswers`) as a `Session` record and each
JS method as a pure state-transformer.  JS arrays are Lean lists; a JS
assignment `a[i] = v` beyond the current length grows the array with
holes (`undefined`), which we represent explicitly.
-/

namespace Quizly

/-- Model of JS `String.prototype.trim` on a character list:
whitespace is removed from both ends. -/
def jsTrimList (cs : List Char) : List Char :=
  ((cs.dropWhile Char.isWhitespace).reverse.dropWhile Char.isWhitespace).reverse

/-- `value.trim()` on Lean strings. -/
def jsTrim (s : String) : String :=
  ⟨jsTrimList s.data⟩

/-- Model of JS `toLowerCase` (ASCII range, which covers all strings the
dashboard compares). -/
def lowerList (cs : List Char) : List Char :=
  cs.map Char.toLower

/-- `s` starts with the pattern `p` (character-list version of JS
`String.prototype.startsWith`). -/
def listStartsWith : List Char → List Char → Bool
  | _, [] => true
  | [], _ :: _ => false
  | c :: cs, p :: ps => c = p && listStartsWith cs ps

/-- `text.toLowerCase().startsWith(pat.toLowerCase())` as in
`renderCurrentQuestion`. -/
def startsWithCI (text pat : String) : Bool :=
  listStartsWith (lowerList text.data) (lowerList pat.data)

/-- Is this character the blank marker `_`? -/
def isUnderscore (c : Char) : Bool :=
  c = '_'

/-- Model of `text.split(/_+/)`: split on each maximal run of one or
more underscores.  The Boolean records whether the previous character
belonged to a run, so that consecutive underscores form one separator.
Like JS `split`, leading/trailing empty parts are kept, so the result
is never empty. -/
def splitRunsAux : Bool → List Char → List (List Char)
  | _, [] => [[]]
  | inRun, c :: rest =>
    if isUnderscore c then
      if inRun then splitRunsAux true rest
      else [] :: splitRunsAux true rest
    else
      match splitRunsAux false rest with
      | [] => [[c]]
      | p :: ps => (c :: p) :: ps

def splitRuns (cs : List Char) : List (List Char) :=
  splitRunsAux false cs

/-- Model of `(text.match(/_+/g) || []).length`: the number of maximal
runs of underscores in the text, with the same run-tracking Boolean. -/
def countRunsAux : Bool → List Char → Nat
  | _, [] => 0
  | inRun, c :: rest =>
    if isUnderscore c then
      (if inRun then 0 else 1) + countRunsAux true rest
    else countRunsAux false rest

def countRuns (cs : List Char) : Nat :=
  countRunsAux false cs

/-- The fixed list of instructional leads stripped by
`renderCurrentQuestion`'s fill-in-blank case (source: `fillInPrefixes`). -/
def fillInLeads : List String :=
  ["Fill in the blank:", "Fill in the blanks:",
   "fill in the blank:", "fill in the blanks:"]

/-- The loop over `fillInPrefixes`: on the first lead that matches
case-insensitively, drop its length and trim; otherwise keep the text. -/
def stripLeadAux : List String → String → String
  | [], t => t
  | p :: ps, t =>
    if startsWithCI t p then jsTrim ⟨t.data.drop p.data.length⟩
    else stripLeadAux ps t

/-- `cleanQuestionText` after the prefix-stripping loop. -/
def cleanFillText (text : String) : String :=
  stripLeadAux fillInLeads text

/-- `blankCount` for a fill-in-blank question text. -/
def blankCountOf (text : String) : Nat :=
  countRuns (cleanFillText text).data

/-- `questionParts` for a fill-in-blank question text. -/
def questionPartsOf (text : String) : List String :=
  (splitRuns (cleanFillText text).data).map (fun l => ⟨l⟩)

/-! ## Data model

`Ans` is the value stored in one `userAnswers` slot: the JS `null`
sentinel, a JS `undefined` hole, an option index (multiple-choice /
true-false), a trimmed free-text string (short-answer), or the
per-blank array (fill-in-blank).  Inside a per-blank array a hole
(`undefined`) is `Option.none`. -/

inductive QType where
  | multipleChoice
  | trueFalse
  | shortAnswer
  | fillInBlank
deriving DecidableEq, Repr

structure Question where
  id : Nat
  qtype : QType
  text : String
deriving DecidableEq, Repr

structure Quiz where
  id : Nat
  title : String
  questions : List Question
deriving DecidableEq, Repr

inductive Ans where
  | nullA : Ans
  | undef : Ans
  | num : Nat → Ans
  | str : String → Ans
  | arr : List (Option String) → Ans
deriving DecidableEq, Repr

/-- The dashboard's quiz-session state while a quiz is loaded:
`this.currentQuiz`, `this.currentQuestionIndex`, `this.userAnswers`. -/
structure Session where
  quiz : Quiz
  currentQuestionIndex : Nat
  userAnswers : List Ans
deriving DecidableEq, Repr

/-- JS read `xs[i]`: out-of-range reads give `undefined`. -/
def jsGetAns (xs : List Ans) (i : Nat) : Ans :=
  xs.getD i Ans.undef

/-- JS write `xs[i] = v` on a `userAnswers` array: in-range writes
update in place, out-of-range writes grow the array with holes. -/
def jsWriteAns (xs : List Ans) (i : Nat) (v : Ans) : List Ans :=
  if i < xs.length then xs.set i v
  else xs ++ List.replicate (i - xs.length) Ans.undef ++ [v]

/-- JS write `xs[i] = v` on a per-blank string array. -/
def jsWriteStr (xs : List (Option String)) (i : Nat) (v : String) :
    List (Option String) :=
  if i < xs.length then xs.set i (some v)
  else xs ++ List.replicate (i - xs.length) none ++ [some v]

/-- `Array.isArray(slot)`. -/
def isArr : Ans → Bool
  | Ans.arr _ => true
  | _ => false

/-! ## Session operations (state effects of the dashboard methods) -/

/-- State effect of `renderCurrentQuestion`: the only mutation is the
fill-in-blank lazy initialization — when the current slot is not an
array it becomes `new Array(blankCount).fill('')`.  All other branches
only touch the DOM.  (An out-of-range index would throw in JS; the
claims only concern in-range states, where the lookup succeeds.) -/
def renderStep (s : Session) : Session :=
  match s.quiz.questions[s.currentQuestionIndex]? with
  | none => s
  | some q =>
    if q.qtype = QType.fillInBlank then
      if isArr (jsGetAns s.userAnswers s.currentQuestionIndex) then s
      else
        let ua := jsWriteAns s.userAnswers s.currentQuestionIndex
          (Ans.arr (List.replicate (blankCountOf q.text) (some "")))
        { s with userAnswers := ua }
    else s

/-- `nextQuestion()`: guarded by
`currentQuestionIndex < questions.length - 1` (JS arithmetic, hence the
`Int` comparison), then re-renders. -/
def nextQuestion (s : Session) : Session :=
  if (s.currentQuestionIndex : Int) < (s.quiz.questions.length : Int) - 1 then
    renderStep { s with currentQuestionIndex := s.currentQuestionIndex + 1 }
  else s

/-- `previousQuestion()`: guarded by `currentQuestionIndex > 0`, then
re-renders. -/
def previousQuestion (s : Session) : Session :=
  if 0 < s.currentQuestionIndex then
    renderStep { s with currentQuestionIndex := s.currentQuestionIndex - 1 }
  else s

/-- `selectAnswer(answerIndex)`: store the option index in the current
slot. -/
def selectAnswer (s : Session) (answerIndex : Nat) : Session :=
  { s with userAnswers :=
      jsWriteAns s.userAnswers s.currentQuestionIndex (Ans.num answerIndex) }

/-- `selectTextAnswer(value)`: store `value.trim()` in the current
slot. -/
def selectTextAnswer (s : Session) (value : String) : Session :=
  let ua := jsWriteAns s.userAnswers s.currentQuestionIndex
    (Ans.str (jsTrim value))
  { s with userAnswers := ua }

/-- The per-blank array `selectFillInAnswer` mutates: the current slot
when it already is an array, otherwise the fresh `[]` it assigns
first. -/
def fillBase (s : Session) : List (Option String) :=
  match jsGetAns s.userAnswers s.currentQuestionIndex with
  | Ans.arr xs => xs
  | _ => []

/-- `selectFillInAnswer(blankIndex, value)`: if the current slot is not
an array it becomes `[]`; then `slot[blankIndex] = value.trim()`. -/
def selectFillInAnswer (s : Session) (blankIndex : Nat) (value : String) :
    Session :=
  let ua := jsWriteAns s.userAnswers s.currentQuestionIndex
    (Ans.arr (jsWriteStr (fillBase s) blankIndex (jsTrim value)))
  { s with userAnswers := ua }

/-- State effect of `takeQuiz` once the quiz has arrived: index 0, a
fresh `new Array(N).fill(null)`, then the first render. -/
def takeQuizLoaded (q : Quiz) : Session :=
  renderStep
    { quiz := q
      currentQuestionIndex := 0
      userAnswers := List.replicate q.questions.length Ans.nullA }

/-- `retakeQuiz()`: keep the quiz, reset index to 0, reset the answers
to `new Array(N).fill(null)`, then render the first question. -/
def retakeQuiz (s : Session) : Session :=
  renderStep
    { quiz := s.quiz
      currentQuestionIndex := 0
      userAnswers := List.replicate s.quiz.questions.length Ans.nullA }

/-- The `forEach` loop of `submitQuiz`: walk the questions with their
index, keeping `{question_id, selected_option}` for every slot that is
not `null` (strict `!==`, so `undefined` and `''` count as answered). -/
def buildAnswers : List Question → List Ans → Nat → List (Nat × Ans)
  | [], _, _ => []
  | q :: rest, ans, i =>
    let a := jsGetAns ans i
    if a = Ans.nullA then buildAnswers rest ans (i + 1)
    else (q.id, a) :: buildAnswers rest ans (i + 1)

/-- `submitQuiz()`: returns early when no quiz is loaded, otherwise
builds the answer payload and posts it to
`/quizzes/{id}/submit` — with no check of `currentQuestionIndex`. -/
def submitQuiz (currentQuiz : Option Quiz) (userAnswers : List Ans) :
    Option (Nat × List (Nat × Ans)) :=
  match currentQuiz with
  | none => none
  | some q => some (q.id, buildAnswers q.questions userAnswers 0)

/-- `updateNavigationButtons()`: the submit button is displayed exactly
when `currentQuestionIndex === questions.length - 1` (JS arithmetic). -/
def submitButtonVisible (s : Session) : Bool :=
  (s.currentQuestionIndex : Int) = (s.quiz.questions.length : Int) - 1

/-! ## Analytics insights -/

/-- The aggregate fields `generateInsights` reads from its `analytics`
argument.  Scores and the trend are modelled as rationals. -/
structure AnalyticsAgg where
  total_attempts : Nat
  best_score : ℚ
  improvement_trend : ℚ
  consistency_score : ℚ
  detailed_attempts : Nat
deriving DecidableEq, Repr

/-- One insight item `{type, icon, text}` (field `type` is renamed
`itype`, `type` being reserved in Lean). -/
structure Insight where
  itype : String
  icon : String
  text : String
deriving DecidableEq, Repr

/-- The advisory pushed when `improvement_trend > 5`. -/
def improvingInsight : Insight :=
  ⟨"success", "fa-arrow-up", "Great improvement trend! Keep it up!"⟩

/-- The advisory pushed when `improvement_trend < -5`. -/
def decliningInsight : Insight :=
  ⟨"warning", "fa-arrow-down", "Scores are declining. Take a break and review."⟩

/-- The "Performance insights" `if`/`else if` block: at most one item
pushed. -/
def perfInsights (a : AnalyticsAgg) : List Insight :=
  if a.best_score ≥ 95 then
    [⟨"success", "fa-star", "Outstanding mastery of this topic!"⟩]
  else if a.best_score ≥ 85 then
    [⟨"success", "fa-thumbs-up", "Excellent understanding demonstrated!"⟩]
  else if a.best_score < 70 then
    [⟨"warning", "fa-book-open",
      "Consider reviewing the material more thoroughly."⟩]
  else []

/-- The "Improvement trend insights" block. -/
def trendInsights (a : AnalyticsAgg) : List Insight :=
  if a.improvement_trend > 5 then [improvingInsight]
  else if a.improvement_trend < -5 then [decliningInsight]
  else []

/-- The "Consistency insights" block. -/
def consisInsights (a : AnalyticsAgg) : List Insight :=
  if a.consistency_score ≥ 80 then
    [⟨"success", "fa-check-circle",
      "Very consistent performance across attempts."⟩]
  else if a.consistency_score < 50 then
    [⟨"info", "fa-exclamation-triangle",
      "Performance varies significantly between attempts."⟩]
  else []

/-- The "Attempt frequency insights" block. -/
def freqInsights (a : AnalyticsAgg) : List Insight :=
  if a.total_attempts = 1 then
    [⟨"info", "fa-play", "Try taking the quiz again to track your progress!"⟩]
  else if a.total_attempts > 10 then
    [⟨"info", "fa-medal", "Dedicated learner! Many attempts show commitment."⟩]
  else []

/-- The "LLM validation insights" block. -/
def llmInsights (a : AnalyticsAgg) : List Insight :=
  if a.detailed_attempts > 0 then
    [⟨"info", "fa-robot",
      toString a.detailed_attempts ++
        " attempts have detailed AI feedback available."⟩]
  else []

/-- `generateInsights(analytics)`: a pure function of the aggregates.
The five blocks push in the source's order; an empty result is replaced
by the fallback item. -/
def generateInsights (a : AnalyticsAgg) : List Insight :=
  if a.total_attempts = 0 then
    [⟨"info", "fa-info-circle",
      "Take your first attempt to get personalized insights!"⟩]
  else
    let insights := perfInsights a ++ trendInsights a ++ consisInsights a ++
      freqInsights a ++ llmInsights a
    if insights = [] then
      [⟨"info", "fa-chart-bar", "Keep taking attempts to unlock more insights!"⟩]
    else insights

/-! ## Concrete states used by counterexamples and witnesses -/

/-- A fill-in-blank question with exactly one blank. -/
def fibQuestion : Question := ⟨3, QType.fillInBlank, "Capital: _"⟩

def fibQuiz : Quiz := ⟨9, "Geo", [fibQuestion]⟩

/-- The fill-in-blank quiz freshly loaded: slot 0 still the sentinel. -/
def fibSession : Session := ⟨fibQuiz, 0, [Ans.nullA]⟩

/-- The fill-in-blank quiz with a non-array value in slot 0. -/
def fibSession2 : Session := ⟨fibQuiz, 0, [Ans.str "old"]⟩

def mcQuestion : Question := ⟨21, QType.multipleChoice, "Q1"⟩

def tfQuestion : Question := ⟨22, QType.trueFalse, "Q2"⟩

def twoQuiz : Quiz := ⟨77, "T", [mcQuestion, tfQuestion]⟩

/-- A two-question quiz at index 0 with only question 0 answered. -/
def twoSession : Session := ⟨twoQuiz, 0, [Ans.num 1, Ans.nullA]⟩

/-- Aggregates with two attempts and a declining trend. -/
def exAgg : AnalyticsAgg := ⟨2, 80, -6, 60, 0⟩

/-! ## Helper lemmas -/

instance : Inhabited Question := ⟨⟨0, QType.multipleChoice, ""⟩⟩

theorem splitRunsAux_ne_nil (cs : List Char) (b : Bool) :
    splitRunsAux b cs ≠ [] := by
  induction cs generalizing b with
  | nil => simp [splitRunsAux]
  | cons c rest ih =>
    rw [splitRunsAux]
    split
    · split
      · exact ih true
      · simp
    · cases h : splitRunsAux false rest <;> simp

theorem splitRunsAux_length (cs : List Char) (b : Bool) :
    (splitRunsAux b cs).length = countRunsAux b cs + 1 := by
  induction cs generalizing b with
  | nil => simp [splitRunsAux, countRunsAux]
  | cons c rest ih =>
    rw [splitRunsAux, countRunsAux]
    by_cases hu : isUnderscore c
    · rw [if_pos hu, if_pos hu]
      cases b with
      | true => simpa using ih true
      | false => simp [ih true]; omega
    · rw [if_neg hu, if_neg hu]
      cases h : splitRunsAux false rest with
      | nil => exact absurd h (splitRunsAux_ne_nil rest false)
      | cons p ps =>
        have := ih false
        rw [h] at this
        simpa using this

/-- The number of parts produced by splitting on underscore runs is
always one more than the number of runs. -/
theorem splitRuns_length (cs : List Char) :
    (splitRuns cs).length = countRuns cs + 1 :=
  splitRunsAux_length cs false

theorem renderStep_index (s : Session) :
    (renderStep s).currentQuestionIndex = s.currentQuestionIndex := by
  unfold renderStep
  split
  · rfl
  · split
    · split <;> rfl
    · rfl

theorem renderStep_quiz (s : Session) : (renderStep s).quiz = s.quiz := by
  unfold renderStep
  split
  · rfl
  · split
    · split <;> rfl
    · rfl

theorem jsWriteAns_eq_set (xs : List Ans) (i : Nat) (v : Ans)
    (h : i < xs.length) : jsWriteAns xs i v = xs.set i v := by
  unfold jsWriteAns
  rw [if_pos h]

theorem jsWriteAns_length (xs : List Ans) (i : Nat) (v : Ans)
    (h : i < xs.length) : (jsWriteAns xs i v).length = xs.length := by
  rw [jsWriteAns_eq_set xs i v h, List.length_set]

theorem renderStep_answers_length (s : Session)
    (hlen : s.userAnswers.length = s.quiz.questions.length) :
    (renderStep s).userAnswers.length = s.userAnswers.length := by
  unfold renderStep
  split
  · rfl
  next q hq =>
    have hi : s.currentQuestionIndex < s.quiz.questions.length := by
      by_contra hc
      push_neg at hc
      rw [List.getElem?_eq_none hc] at hq
      cases hq
    split
    · split
      · rfl
      · exact jsWriteAns_length _ _ _ (hlen ▸ hi)
    · rfl

theorem getD_replicate (n j : Nat) (a d : Ans) :
    (List.replicate n a).getD j d = if j < n then a else d := by
  induction n generalizing j with
  | zero => simp [List.getD]
  | succ m ih =>
    cases j with
    | zero => simp [List.replicate]
    | succ k =>
      rw [List.replicate]
      simp only [List.getD_cons_succ]
      rw [ih k]
      simp [Nat.succ_lt_succ_iff]

theorem jsWriteStr_length (xs : List (Option String)) (i : Nat) (v : String) :
    (jsWriteStr xs i v).length = max xs.length (i + 1) := by
  unfold jsWriteStr
  split
  next h =>
    rw [List.length_set]
    omega
  next h =>
    simp only [List.length_append, List.length_replicate, List.length_cons,
      List.length_nil]
    omega

theorem jsWriteStr_getD_self (xs : List (Option String)) (i : Nat) (v : String) :
    (jsWriteStr xs i v).getD i none = some v := by
  unfold jsWriteStr
  split
  next h =>
    rw [List.getD_eq_getElem?_getD, List.getElem?_set_self (by simpa using h)]
    rfl
  next h =>
    push_neg at h
    rw [List.getD_eq_getElem?_getD, List.append_assoc,
      List.getElem?_append_right h]
    have hlen : (List.replicate (i - xs.length) (none : Option String)).length =
        i - xs.length := List.length_replicate _ _
    rw [List.getElem?_append_right (by omega)]
    simp [hlen]

theorem jsWriteStr_getD_other (xs : List (Option String)) (i j : Nat)
    (v : String) (hne : j ≠ i) :
    (jsWriteStr xs i v).getD j none = xs.getD j none := by
  unfold jsWriteStr
  split
  next h =>
    rw [List.getD_eq_getElem?_getD, List.getElem?_set_ne (Ne.symm hne),
      ← List.getD_eq_getElem?_getD]
  next h =>
    push_neg at h
    rw [List.getD_eq_getElem?_getD, List.append_assoc]
    by_cases hj : j < xs.length
    · rw [List.getElem?_append_left hj, ← List.getD_eq_getElem?_getD]
    · push_neg at hj
      rw [List.getElem?_append_right hj]
      have hxs : xs.getD j none = none := by
        rw [List.getD_eq_getElem?_getD, List.getElem?_eq_none hj]
        rfl
      rw [hxs]
      by_cases hji : j - xs.length < i - xs.length
      · rw [List.getElem?_append_left (by simpa using hji)]
        simp [List.getElem?_replicate, hji]
      · push_neg at hji
        rw [List.getElem?_append_right (by simpa using hji)]
        have : i < j := by omega
        simp only [List.length_replicate]
        rw [List.getElem?_cons]
        have hne0 : j - xs.length - (i - xs.length) ≠ 0 := by omega
        rw [if_neg hne0]
        simp

/-- `buildAnswers` is exactly: filter the in-order question indices to
those whose slot is not `null`, and pair each with its question id and
stored answer. -/
theorem buildAnswers_eq (qs : List Question) (ans : List Ans) (i : Nat) :
    buildAnswers qs ans i =
      ((List.range qs.length).filter
          (fun j => decide (jsGetAns ans (i + j) ≠ Ans.nullA))).map
        (fun j => ((qs.getD j default).id, jsGetAns ans (i + j))) := by
  induction qs generalizing i with
  | nil => simp [buildAnswers]
  | cons q rest ih =>
    have hidx : ∀ j : Nat, i + Nat.succ j = (i + 1) + j := fun j => by omega
    have hp : ((fun j => decide (jsGetAns ans (i + j) ≠ Ans.nullA)) ∘ Nat.succ) =
        (fun j => decide (jsGetAns ans ((i + 1) + j) ≠ Ans.nullA)) := by
      funext j
      simp only [Function.comp_apply]
      rw [hidx j]
    have hf : ((fun j => (((q :: rest).getD j default).id, jsGetAns ans (i + j)))
          ∘ Nat.succ) =
        (fun j => ((rest.getD j default).id, jsGetAns ans ((i + 1) + j))) := by
      funext j
      simp only [Function.comp_apply, List.getD_cons_succ]
      rw [hidx j]
    rw [buildAnswers, List.length_cons, List.range_succ_eq_map,
      List.filter_cons]
    by_cases h0 : jsGetAns ans i = Ans.nullA
    · have hc : decide (jsGetAns ans (i + 0) ≠ Ans.nullA) = false := by
        simp [Nat.add_zero, h0]
      rw [if_pos h0, hc, if_neg (by simp), List.filter_map, hp, List.map_map,
        hf, ih (i + 1)]
    · have hc : decide (jsGetAns ans (i + 0) ≠ Ans.nullA) = true := by
        simp [Nat.add_zero, h0]
      rw [if_neg h0, hc, if_pos rfl, List.filter_map, hp, List.map_cons,
        List.map_map, hf, ih (i + 1)]
      simp only [List.getD_cons_zero, Nat.add_zero]

theorem selectAnswer_answers (s : Session) (n : Nat) :
    (selectAnswer s n).userAnswers =
      jsWriteAns s.userAnswers s.currentQuestionIndex (Ans.num n) := rfl

theorem selectTextAnswer_answers (s : Session) (v : String) :
    (selectTextAnswer s v).userAnswers =
      jsWriteAns s.userAnswers s.currentQuestionIndex
        (Ans.str (jsTrim v)) := rfl

theorem selectFillInAnswer_answers (s : Session) (i : Nat) (v : String) :
    (selectFillInAnswer s i v).userAnswers =
      jsWriteAns s.userAnswers s.currentQuestionIndex
        (Ans.arr (jsWriteStr (fillBase s) i (jsTrim v))) := rfl

/-! ## Claim theorems -/

/-- Claim C1: with a loaded quiz of `N` questions and the current index
in `[0, N-1]`, `nextQuestion` increments the index only when
`index < N-1` and `previousQuestion` decrements it only when
`index > 0`; invoked at the respective boundary each operation leaves
the whole state — index and answer sequence — unchanged, so the index
never leaves `[0, N-1]`. -/
theorem nav_index_invariant (s : Session)
    (hidx : s.currentQuestionIndex < s.quiz.questions.length) :
    (nextQuestion s).currentQuestionIndex < s.quiz.questions.length ∧
    (previousQuestion s).currentQuestionIndex < s.quiz.questions.length ∧
    ((s.currentQuestionIndex : Int) < (s.quiz.questions.length : Int) - 1 →
      (nextQuestion s).currentQuestionIndex = s.currentQuestionIndex + 1) ∧
    (s.currentQuestionIndex + 1 = s.quiz.questions.length →
      nextQuestion s = s) ∧
    (0 < s.currentQuestionIndex →
      (previousQuestion s).currentQuestionIndex =
        s.currentQuestionIndex - 1) ∧
    (s.currentQuestionIndex = 0 → previousQuestion s = s) := by
  unfold nextQuestion previousQuestion
  refine ⟨?_, ?_, ?_, ?_, ?_, ?_⟩
  · split
    next h =>
      rw [renderStep_index]
      show s.currentQuestionIndex + 1 < _
      omega
    next h => exact hidx
  · split
    next h =>
      rw [renderStep_index]
      show s.currentQuestionIndex - 1 < _
      omega
    next h => exact hidx
  · intro hlt
    rw [if_pos hlt, renderStep_index]
  · intro hlast
    rw [if_neg (by omega)]
  · intro hpos
    rw [if_pos hpos, renderStep_index]
  · intro h0
    rw [if_neg (by omega)]

/-- Claim C1 witness: a loaded one-question quiz at index 0 — both
navigation operations keep the index in range. -/
theorem nav_index_invariant_witness :
    (⟨⟨9, "Geo", [⟨3, QType.fillInBlank, "Capital: _"⟩]⟩, 0,
        [Ans.nullA]⟩ : Session).currentQuestionIndex <
      (⟨⟨9, "Geo", [⟨3, QType.fillInBlank, "Capital: _"⟩]⟩, 0,
        [Ans.nullA]⟩ : Session).quiz.questions.length ∧
    (nextQuestion ⟨⟨9, "Geo", [⟨3, QType.fillInBlank, "Capital: _"⟩]⟩, 0,
        [Ans.nullA]⟩).currentQuestionIndex <
      (⟨⟨9, "Geo", [⟨3, QType.fillInBlank, "Capital: _"⟩]⟩, 0,
        [Ans.nullA]⟩ : Session).quiz.questions.length :=
  ⟨by decide,
    (nav_index_invariant
      ⟨⟨9, "Geo", [⟨3, QType.fillInBlank, "Capital: _"⟩]⟩, 0, [Ans.nullA]⟩
      (by decide)).1⟩

/-- Claim C2: a session's answer sequence is allocated with `N`
sentinel entries (`takeQuizLoaded`, `retakeQuiz`) and keeps length
exactly `N` under every answer-recording and rendering operation. -/
theorem answers_length_invariant (s : Session) (q : Quiz) (n b : Nat)
    (v w : String)
    (hlen : s.userAnswers.length = s.quiz.questions.length)
    (hidx : s.currentQuestionIndex < s.quiz.questions.length) :
    (takeQuizLoaded q).userAnswers.length = q.questions.length ∧
    (retakeQuiz s).userAnswers.length = s.quiz.questions.length ∧
    (selectAnswer s n).userAnswers.length = s.quiz.questions.length ∧
    (selectTextAnswer s v).userAnswers.length = s.quiz.questions.length ∧
    (selectFillInAnswer s b w).userAnswers.length =
      s.quiz.questions.length ∧
    (renderStep s).userAnswers.length = s.quiz.questions.length ∧
    (nextQuestion s).userAnswers.length = s.quiz.questions.length ∧
    (previousQuestion s).userAnswers.length = s.quiz.questions.length := by
  refine ⟨?_, ?_, ?_, ?_, ?_, ?_, ?_, ?_⟩
  · rw [takeQuizLoaded, renderStep_answers_length _ (by simp)]
    simp
  · rw [retakeQuiz, renderStep_answers_length _ (by simp)]
    simp
  · rw [selectAnswer_answers, jsWriteAns_length _ _ _ (by omega)]
    exact hlen
  · rw [selectTextAnswer_answers, jsWriteAns_length _ _ _ (by omega)]
    exact hlen
  · rw [selectFillInAnswer_answers, jsWriteAns_length _ _ _ (by omega)]
    exact hlen
  · rw [renderStep_answers_length _ hlen]
    exact hlen
  · unfold nextQuestion
    split
    · exact (renderStep_answers_length
        { s with currentQuestionIndex := s.currentQuestionIndex + 1 }
        hlen).trans hlen
    · exact hlen
  · unfold previousQuestion
    split
    · exact (renderStep_answers_length
        { s with currentQuestionIndex := s.currentQuestionIndex - 1 }
        hlen).trans hlen
    · exact hlen

/-- Claim C2 witness: a loaded one-question session — the recording and
rendering operations keep the answer sequence at length 1. -/
theorem answers_length_invariant_witness :
    ((⟨⟨9, "Geo", [⟨3, QType.fillInBlank, "Capital: _"⟩]⟩, 0,
          [Ans.nullA]⟩ : Session).userAnswers.length =
        (⟨⟨9, "Geo", [⟨3, QType.fillInBlank, "Capital: _"⟩]⟩, 0,
          [Ans.nullA]⟩ : Session).quiz.questions.length) ∧
    (selectTextAnswer
        ⟨⟨9, "Geo", [⟨3, QType.fillInBlank, "Capital: _"⟩]⟩, 0,
          [Ans.nullA]⟩ " hi ").userAnswers.length =
      (⟨⟨9, "Geo", [⟨3, QType.fillInBlank, "Capital: _"⟩]⟩, 0,
        [Ans.nullA]⟩ : Session).quiz.questions.length :=
  ⟨by decide,
    (answers_length_invariant
      ⟨⟨9, "Geo", [⟨3, QType.fillInBlank, "Capital: _"⟩]⟩, 0, [Ans.nullA]⟩
      ⟨9, "Geo", [⟨3, QType.fillInBlank, "Capital: _"⟩]⟩ 0 0 " hi " " hi "
      (by decide) (by decide)).2.2.2.1⟩

/-- Claim C3: fill-in-blank parsing first strips a leading
instructional lead when the text starts, case-insensitively, with one
of the fixed set (the four source entries collapse to the two distinct
leads below), then splits the remainder on each run of one or more
underscores; the number of question parts is always the blank count
plus one, the length used for the per-blank answer array. -/
theorem fillInBlank_parsing (text : String) :
    (questionPartsOf text).length = blankCountOf text + 1 ∧
    cleanFillText text =
      (if startsWithCI text "Fill in the blank:" then
        jsTrim ⟨text.data.drop 18⟩
      else if startsWithCI text "Fill in the blanks:" then
        jsTrim ⟨text.data.drop 19⟩
      else text) := by
  constructor
  · rw [questionPartsOf, blankCountOf, List.length_map, splitRuns_length]
  · have h3 : lowerList ("fill in the blank:".data) =
        lowerList ("Fill in the blank:".data) := by decide
    have h4 : lowerList ("fill in the blanks:".data) =
        lowerList ("Fill in the blanks:".data) := by decide
    have e3 : startsWithCI text "fill in the blank:" =
        startsWithCI text "Fill in the blank:" := by
      unfold startsWithCI
      rw [h3]
    have e4 : startsWithCI text "fill in the blanks:" =
        startsWithCI text "Fill in the blanks:" := by
      unfold startsWithCI
      rw [h4]
    have l1 : ("Fill in the blank:" : String).data.length = 18 := by decide
    have l2 : ("Fill in the blanks:" : String).data.length = 19 := by decide
    unfold cleanFillText fillInLeads
    simp only [stripLeadAux, e3, e4, l1, l2]
    by_cases b1 : startsWithCI text "Fill in the blank:" = true
    · simp [b1]
    · by_cases b2 : startsWithCI text "Fill in the blanks:" = true
      · simp [b1, b2]
      · simp [b1, b2]

/-- Claim C4: the submission payload contains exactly the answer slots
that are not the `null` sentinel, in question order, each paired with
its question id; sentinel slots are omitted. -/
theorem submit_sends_answered_slots (q : Quiz) (ans : List Ans) :
    submitQuiz (some q) ans =
      some (q.id,
        ((List.range q.questions.length).filter
            (fun j => decide (jsGetAns ans j ≠ Ans.nullA))).map
          (fun j => ((q.questions.getD j default).id, jsGetAns ans j))) := by
  show some (q.id, buildAnswers q.questions ans 0) = _
  rw [buildAnswers_eq]
  simp only [Nat.zero_add]

/-- Rendering the first question of a freshly reset session touches
the answers only when question 0 is fill-in-blank, in which case slot 0
becomes the all-empty per-blank array. -/
theorem renderStep_reset (q : Quiz) :
    (renderStep
        ⟨q, 0, List.replicate q.questions.length Ans.nullA⟩).userAnswers =
      (match q.questions[0]? with
      | some q0 =>
        if q0.qtype = QType.fillInBlank then
          (List.replicate q.questions.length Ans.nullA).set 0
            (Ans.arr (List.replicate (blankCountOf q0.text) (some "")))
        else List.replicate q.questions.length Ans.nullA
      | none => List.replicate q.questions.length Ans.nullA) := by
  unfold renderStep
  dsimp only
  cases hq : q.questions[0]? with
  | none => rfl
  | some q0 =>
    dsimp only
    by_cases hf : q0.qtype = QType.fillInBlank
    · rw [if_pos hf, if_pos hf]
      have hN : 0 < q.questions.length := by
        by_contra hc
        push_neg at hc
        rw [List.getElem?_eq_none (by omega)] at hq
        cases hq
      have hslot :
          jsGetAns (List.replicate q.questions.length Ans.nullA) 0 =
            Ans.nullA := by
        unfold jsGetAns
        rw [getD_replicate, if_pos hN]
      rw [hslot]
      dsimp [isArr]
      rw [jsWriteAns_eq_set _ _ _ (by simpa using hN)]
    · rw [if_neg hf, if_neg hf]

/-- Claim C5 counterexample: for the one-question fill-in-blank quiz
whose blank count is 1, recording at blank index 3 raises no
out-of-range failure — the value is stored — and the lazily created
array is `[]` grown to length 4 with holes, not an array of the blank
count. -/
theorem selectFillIn_oob_counterexample :
    blankCountOf fibQuestion.text = 1 ∧
    (selectFillInAnswer fibSession 3 " x ").userAnswers =
      [Ans.arr [none, none, none, some "x"]] := by
  constructor
  · decide
  · decide

/-- Claim C5 (amended): `selectFillInAnswer` lazily initializes the
slot to the empty array `[]` — not to the blank count — when the slot
is not already an array; it then stores the trimmed value at
`blankIndex`, growing the per-blank array with holes when `blankIndex`
is beyond its length, so an out-of-range `blankIndex` stores the value
rather than failing. -/
theorem selectFillIn_amended (s : Session) (i : Nat) (v : String)
    (hidx : s.currentQuestionIndex < s.userAnswers.length) :
    (selectFillInAnswer s i v).userAnswers =
      s.userAnswers.set s.currentQuestionIndex
        (Ans.arr (jsWriteStr (fillBase s) i (jsTrim v))) ∧
    (jsWriteStr (fillBase s) i (jsTrim v)).getD i none = some (jsTrim v) ∧
    (jsWriteStr (fillBase s) i (jsTrim v)).length =
      max (fillBase s).length (i + 1) ∧
    (∀ j, j ≠ i →
      (jsWriteStr (fillBase s) i (jsTrim v)).getD j none =
        (fillBase s).getD j none) ∧
    (isArr (jsGetAns s.userAnswers s.currentQuestionIndex) = false →
      fillBase s = []) := by
  refine ⟨?_, jsWriteStr_getD_self _ _ _, jsWriteStr_length _ _ _,
    fun j hj => jsWriteStr_getD_other _ _ _ _ hj, ?_⟩
  · rw [selectFillInAnswer_answers, jsWriteAns_eq_set _ _ _ hidx]
  · intro hna
    unfold fillBase
    cases h : jsGetAns s.userAnswers s.currentQuestionIndex with
    | arr xs =>
      rw [h] at hna
      simp [isArr] at hna
    | nullA => rfl
    | undef => rfl
    | num n => rfl
    | str t => rfl

/-- Claim C5 witness: instantiating the amended theorem on the concrete
session whose slot 0 holds a non-array value. -/
theorem selectFillIn_amended_witness :
    fibSession2.currentQuestionIndex < fibSession2.userAnswers.length ∧
    (selectFillInAnswer fibSession2 0 " a ").userAnswers =
      fibSession2.userAnswers.set fibSession2.currentQuestionIndex
        (Ans.arr (jsWriteStr (fillBase fibSession2) 0 (jsTrim " a "))) :=
  ⟨by decide, (selectFillIn_amended fibSession2 0 " a " (by decide)).1⟩

/-- Claim C6 counterexample: at index 0 of a two-question quiz the
last-question guard fails (the submit button is hidden), yet a submit
event is accepted: `submitQuiz` builds the payload and performs the
hand-off without consulting the index. -/
theorem submit_no_index_guard_counterexample :
    submitButtonVisible twoSession = false ∧
    twoSession.currentQuestionIndex = 0 ∧
    submitQuiz (some twoSession.quiz) twoSession.userAnswers =
      some (77, [(21, Ans.num 1)]) := by
  refine ⟨by decide, by decide, by decide⟩

/-- Claim C6 (amended): the `index = len-1` guard exists only as UI
visibility — `updateNavigationButtons` displays the submit button
exactly at the last question — while `submitQuiz` itself performs the
hand-off for every loaded quiz at any index, and declines only when no
quiz is loaded. -/
theorem submit_guard_amended (s : Session) :
    (submitButtonVisible s = true ↔
      (s.currentQuestionIndex : Int) + 1 = (s.quiz.questions.length : Int)) ∧
    (submitQuiz (some s.quiz) s.userAnswers).isSome = true ∧
    (∀ ans : List Ans, submitQuiz none ans = none) := by
  refine ⟨?_, rfl, fun ans => rfl⟩
  unfold submitButtonVisible
  rw [decide_eq_true_eq]
  omega

/-- Claim C7 counterexample: retaking the one-question fill-in-blank
quiz resets and then immediately renders question 0, whose lazy
initialization replaces the sentinel — the post-retake answer sequence
is not all-sentinel. -/
theorem retake_not_all_sentinel_counterexample :
    (retakeQuiz fibSession2).quiz = fibSession2.quiz ∧
    (retakeQuiz fibSession2).currentQuestionIndex = 0 ∧
    (retakeQuiz fibSession2).userAnswers ≠
      List.replicate fibSession2.quiz.questions.length Ans.nullA ∧
    (retakeQuiz fibSession2).userAnswers = [Ans.arr [some ""]] := by
  refine ⟨by decide, by decide, by decide, by decide⟩

/-- Claim C7 (amended): retake keeps the quiz (identity, title and
question sequence) unchanged, resets the index to 0 and the answers to
`N` sentinels; the render it triggers then replaces slot 0 with the
all-empty per-blank array exactly when question 0 is fill-in-blank —
every other slot stays sentinel, and for a non-fill-in-blank first
question the sequence is all-sentinel as claimed. -/
theorem retake_amended (s : Session) :
    (retakeQuiz s).quiz = s.quiz ∧
    (retakeQuiz s).currentQuestionIndex = 0 ∧
    (retakeQuiz s).userAnswers.length = s.quiz.questions.length ∧
    (∀ j, 0 < j → j < s.quiz.questions.length →
      (retakeQuiz s).userAnswers.getD j Ans.undef = Ans.nullA) ∧
    (∀ q0 : Question, s.quiz.questions[0]? = some q0 →
      q0.qtype = QType.fillInBlank →
      (retakeQuiz s).userAnswers.getD 0 Ans.undef =
        Ans.arr (List.replicate (blankCountOf q0.text) (some ""))) ∧
    (∀ q0 : Question, s.quiz.questions[0]? = some q0 →
      q0.qtype ≠ QType.fillInBlank →
      (retakeQuiz s).userAnswers =
        List.replicate s.quiz.questions.length Ans.nullA) := by
  have hq := renderStep_quiz
    ⟨s.quiz, 0, List.replicate s.quiz.questions.length Ans.nullA⟩
  have hi := renderStep_index
    ⟨s.quiz, 0, List.replicate s.quiz.questions.length Ans.nullA⟩
  have ha := renderStep_reset s.quiz
  refine ⟨hq, hi, ?_, ?_, ?_, ?_⟩
  · show (renderStep _).userAnswers.length = _
    rw [ha]
    cases s.quiz.questions[0]? with
    | none => simp
    | some q0 =>
      dsimp only
      split <;> simp
  · intro j hj0 hjN
    show (renderStep _).userAnswers.getD j Ans.undef = _
    rw [ha]
    cases s.quiz.questions[0]? with
    | none => rw [getD_replicate, if_pos hjN]
    | some q0 =>
      dsimp only
      split
      · rw [List.getD_eq_getElem?_getD,
          List.getElem?_set_ne (by omega),
          ← List.getD_eq_getElem?_getD, getD_replicate, if_pos hjN]
      · rw [getD_replicate, if_pos hjN]
  · intro q0 hq0 hf
    show (renderStep _).userAnswers.getD 0 Ans.undef = _
    rw [ha, hq0]
    dsimp only
    rw [if_pos hf]
    have hN : 0 < s.quiz.questions.length := by
      by_contra hc
      push_neg at hc
      rw [List.getElem?_eq_none (by omega)] at hq0
      cases hq0
    rw [List.getD_eq_getElem?_getD, List.getElem?_set_self (by simpa using hN)]
    rfl
  · intro q0 hq0 hf
    show (renderStep _).userAnswers = _
    rw [ha, hq0]
    dsimp only
    rw [if_neg hf]

/-- Claim C8: recording a short-answer stores the input trimmed of
surrounding whitespace; the stored value — even when empty after the
trim — is distinct from the `null` sentinel, so the slot counts as
answered, and the sequence length is unchanged. -/
theorem setText_stores_trimmed (s : Session) (v : String)
    (hidx : s.currentQuestionIndex < s.userAnswers.length) :
    (selectTextAnswer s v).userAnswers.getD s.currentQuestionIndex
        Ans.undef = Ans.str (jsTrim v) ∧
    Ans.str (jsTrim v) ≠ Ans.nullA ∧
    (selectTextAnswer s v).userAnswers.length = s.userAnswers.length := by
  refine ⟨?_, fun h => Ans.noConfusion h, ?_⟩
  · rw [selectTextAnswer_answers, jsWriteAns_eq_set _ _ _ hidx,
      List.getD_eq_getElem?_getD,
      List.getElem?_set_self (by simpa using hidx)]
    rfl
  · rw [selectTextAnswer_answers, jsWriteAns_length _ _ _ hidx]

/-- Claim C8 witness: a whitespace-only input is stored as the empty
string and still counts as answered. -/
theorem setText_stores_trimmed_witness :
    (fibSession.currentQuestionIndex < fibSession.userAnswers.length ∧
      jsTrim "   " = "") ∧
    ((selectTextAnswer fibSession "   ").userAnswers.getD
        fibSession.currentQuestionIndex Ans.undef =
          Ans.str (jsTrim "   ") ∧
      Ans.str (jsTrim "   ") ≠ Ans.nullA ∧
      (selectTextAnswer fibSession "   ").userAnswers.length =
        fibSession.userAnswers.length) :=
  ⟨⟨by decide, by decide⟩, setText_stores_trimmed fibSession "   " (by decide)⟩

/-- Claim C10: rendering a fill-in-blank question whose slot is not yet
an array replaces the slot with an array of `blankCount` empty strings;
the slot is then no longer the sentinel, so the question is included in
the submission payload as all-empty blanks even though the user never
typed anything. -/
theorem render_includes_untouched_fillin (s : Session) (q : Question)
    (hq : s.quiz.questions[s.currentQuestionIndex]? = some q)
    (hfib : q.qtype = QType.fillInBlank)
    (hnotarr : isArr (jsGetAns s.userAnswers s.currentQuestionIndex) = false)
    (hlen : s.userAnswers.length = s.quiz.questions.length) :
    (renderStep s).userAnswers =
      s.userAnswers.set s.currentQuestionIndex
        (Ans.arr (List.replicate (blankCountOf q.text) (some ""))) ∧
    jsGetAns (renderStep s).userAnswers s.currentQuestionIndex ≠
      Ans.nullA ∧
    (q.id, Ans.arr (List.replicate (blankCountOf q.text) (some ""))) ∈
      buildAnswers s.quiz.questions (renderStep s).userAnswers 0 := by
  have hiq : s.currentQuestionIndex < s.quiz.questions.length := by
    by_contra hc
    push_neg at hc
    rw [List.getElem?_eq_none hc] at hq
    cases hq
  have hia : s.currentQuestionIndex < s.userAnswers.length := by omega
  have h1 : (renderStep s).userAnswers =
      s.userAnswers.set s.currentQuestionIndex
        (Ans.arr (List.replicate (blankCountOf q.text) (some ""))) := by
    unfold renderStep
    rw [hq]
    dsimp only
    rw [if_pos hfib, hnotarr, if_neg (by decide : ¬(false = true))]
    exact jsWriteAns_eq_set _ _ _ hia
  have h2 : jsGetAns (renderStep s).userAnswers s.currentQuestionIndex =
      Ans.arr (List.replicate (blankCountOf q.text) (some "")) := by
    rw [h1]
    unfold jsGetAns
    rw [List.getD_eq_getElem?_getD,
      List.getElem?_set_self (by simpa using hia)]
    rfl
  refine ⟨h1, ?_, ?_⟩
  · rw [h2]
    exact fun h => Ans.noConfusion h
  · rw [buildAnswers_eq]
    refine List.mem_map.mpr ⟨s.currentQuestionIndex, ?_, ?_⟩
    · refine List.mem_filter.mpr ⟨List.mem_range.mpr hiq, ?_⟩
      rw [Nat.zero_add, h2]
      exact decide_eq_true (fun h => Ans.noConfusion h)
    · rw [Nat.zero_add, h2, List.getD_eq_getElem?_getD, hq]
      rfl

/-- Claim C10 witness: the freshly loaded one-question fill-in-blank
session, rendered once, has slot 0 initialized to the all-empty blank
array. -/
theorem render_includes_untouched_fillin_witness :
    (fibSession.quiz.questions[fibSession.currentQuestionIndex]? =
        some fibQuestion ∧
      fibQuestion.qtype = QType.fillInBlank ∧
      isArr (jsGetAns fibSession.userAnswers
          fibSession.currentQuestionIndex) = false ∧
      fibSession.userAnswers.length = fibSession.quiz.questions.length) ∧
    (renderStep fibSession).userAnswers =
      fibSession.userAnswers.set fibSession.currentQuestionIndex
        (Ans.arr (List.replicate (blankCountOf fibQuestion.text)
          (some ""))) :=
  ⟨⟨by decide, by decide, by decide, by decide⟩,
    (render_includes_untouched_fillin fibSession fibQuestion (by decide)
      (by decide) (by decide) (by decide)).1⟩

theorem perf_no_trend (a : AnalyticsAgg) :
    decliningInsight ∉ perfInsights a ∧
    improvingInsight ∉ perfInsights a := by
  unfold perfInsights
  split_ifs <;> simp [decliningInsight, improvingInsight]

theorem consis_no_trend (a : AnalyticsAgg) :
    decliningInsight ∉ consisInsights a ∧
    improvingInsight ∉ consisInsights a := by
  unfold consisInsights
  split_ifs <;> simp [decliningInsight, improvingInsight]

theorem freq_no_trend (a : AnalyticsAgg) :
    decliningInsight ∉ freqInsights a ∧
    improvingInsight ∉ freqInsights a := by
  unfold freqInsights
  split_ifs <;> simp [decliningInsight, improvingInsight]

theorem llm_no_trend (a : AnalyticsAgg) :
    decliningInsight ∉ llmInsights a ∧
    improvingInsight ∉ llmInsights a := by
  unfold llmInsights
  split_ifs <;> simp [decliningInsight, improvingInsight]

theorem mem_trend_declining (a : AnalyticsAgg) :
    decliningInsight ∈ trendInsights a ↔ a.improvement_trend < -5 := by
  unfold trendInsights
  split_ifs with h1 h2
  · simp only [List.mem_singleton, decliningInsight, improvingInsight,
      Insight.mk.injEq]
    constructor
    · rintro ⟨h, -⟩
      exact absurd h (by decide)
    · intro hc
      linarith
  · simp [h2]
  · simp [h2]

theorem mem_trend_improving (a : AnalyticsAgg) :
    improvingInsight ∈ trendInsights a ↔ a.improvement_trend > 5 := by
  unfold trendInsights
  split_ifs with h1 h2
  · simp [h1]
  · simp only [List.mem_singleton, decliningInsight, improvingInsight,
      Insight.mk.injEq]
    constructor
    · rintro ⟨h, -⟩
      exact absurd h (by decide)
    · intro hc
      exact absurd hc h1
  · simp [h1]

theorem trend_empty_bounds (a : AnalyticsAgg)
    (ht : trendInsights a = []) :
    ¬(a.improvement_trend > 5) ∧ ¬(a.improvement_trend < -5) := by
  unfold trendInsights at ht
  split_ifs at ht with h1 h2
  exact ⟨h1, h2⟩

/-- Claim C9: for aggregates with at least one attempt, insight
generation is the pure function `generateInsights` of the input record,
and the declining-scores advisory is included exactly when
`improvement_trend < -5`, the improvement advisory exactly when
`improvement_trend > 5`. -/
theorem insights_trend_thresholds (a : AnalyticsAgg)
    (h : a.total_attempts ≠ 0) :
    (decliningInsight ∈ generateInsights a ↔ a.improvement_trend < -5) ∧
    (improvingInsight ∈ generateInsights a ↔ a.improvement_trend > 5) := by
  unfold generateInsights
  rw [if_neg h]
  dsimp only
  by_cases he : perfInsights a ++ trendInsights a ++ consisInsights a ++
      freqInsights a ++ llmInsights a = []
  · rw [if_pos he]
    have ht : trendInsights a = [] := by
      simp only [List.append_eq_nil] at he
      tauto
    obtain ⟨hnt1, hnt2⟩ := trend_empty_bounds a ht
    constructor
    · simp [decliningInsight, hnt2]
    · simp [improvingInsight, hnt1]
  · rw [if_neg he]
    constructor
    · simp [List.mem_append, (perf_no_trend a).1, (consis_no_trend a).1,
        (freq_no_trend a).1, (llm_no_trend a).1, mem_trend_declining a]
    · simp [List.mem_append, (perf_no_trend a).2, (consis_no_trend a).2,
        (freq_no_trend a).2, (llm_no_trend a).2, mem_trend_improving a]

/-- Claim C9 witness: two attempts with trend −6 — the declining
advisory is present, the improvement advisory absent. -/
theorem insights_trend_thresholds_witness :
    exAgg.total_attempts ≠ 0 ∧
    ((decliningInsight ∈ generateInsights exAgg ↔
        exAgg.improvement_trend < -5) ∧
      (improvingInsight ∈ generateInsights exAgg ↔
        exAgg.improvement_trend > 5)) :=
  ⟨by decide, insights_trend_thresholds exAgg (by decide)⟩

end Quizly
